import Mathlib

/- A shallow embedding of the core data model and operations of the tracy
process-tracing library, following src/src/tracy/tracy.h. Only the header is
part of the source tree; every operation whose implementation is not under src
is modelled from the design document and carries a doc comment saying so. -/

/-- Decoded syscall arguments, following struct tracy_sc_args in tracy.h:
six argument slots, the return-value slot, the syscall-number slot, the
instruction pointer and the stack pointer, all C longs. -/
structure tracy_sc_args where
  a0 : Int
  a1 : Int
  a2 : Int
  a3 : Int
  a4 : Int
  a5 : Int
  return_code : Int
  syscall : Int
  ip : Int
  sp : Int
deriving DecidableEq

/-- Per-child injection context, following struct tracy_inject_data in
tracy.h: the injecting/injected flags, the pre flag, the injected syscall
number, the saved register snapshot (modelled by the decoded register slots)
and the completion callback (modelled as an abstract identifier). -/
structure tracy_inject_data where
  injecting : Bool
  injected : Bool
  pre : Bool
  syscall_num : Int
  reg : tracy_sc_args
  cb : Nat
deriving DecidableEq

/-- Per-tracee record, following struct tracy_child in tracy.h. The regs
field models the tracee's register file reached through the trace primitive
(not a struct member in C). The denied_ret and denying fields model the
caller-supplied substitute return value and the pending-denial marker: the
design document keeps them implicit (denied_nr holds the denied number "or a
sentinel", and the substitute value is caller-supplied), and the
implementation is not under src, so they are modelled as explicit state. -/
structure tracy_child where
  pid : Int
  attached : Bool
  pre_syscall : Bool
  mem_fd : Int
  denied_nr : Int
  denied_ret : Int
  denying : Bool
  inj : tracy_inject_data
  regs : tracy_sc_args
deriving DecidableEq

/-- Hook return value TRACY_HOOK_CONTINUE from tracy.h. -/
def TRACY_HOOK_CONTINUE : Int := 0

/-- Hook return value TRACY_HOOK_KILL_CHILD from tracy.h. -/
def TRACY_HOOK_KILL_CHILD : Int := 1

/-- Hook return value TRACY_HOOK_ABORT from tracy.h. -/
def TRACY_HOOK_ABORT : Int := 2

/-- Hook return value TRACY_HOOK_NOHOOK from tracy.h. -/
def TRACY_HOOK_NOHOOK : Int := 3

/-- The bit pattern of a left shift carried out in 32-bit C int arithmetic,
as in the option defines of tracy.h. -/
def c_int_shl (a n : Nat) : Nat := (a <<< n) % 2 ^ 32

/-- Widening of a 32-bit C int bit pattern to a 64-bit C long bit pattern
(LP64 sign extension: patterns with the sign bit set gain the 32 high bits). -/
def c_int_widen_long (p : Nat) : Nat :=
  if p < 2 ^ 31 then p else p + (2 ^ 64 - 2 ^ 32)

/-- TRACY_TRACE_CHILDREN, defined as 1 << 0 in tracy.h, as the 64-bit bit
pattern of the C long it widens to. -/
def TRACY_TRACE_CHILDREN : Nat := c_int_widen_long (c_int_shl 1 0)

/-- TRACY_VERBOSE, defined as 1 << 1 in tracy.h, as the 64-bit bit pattern of
the C long it widens to. -/
def TRACY_VERBOSE : Nat := c_int_widen_long (c_int_shl 1 1)

/-- TRACY_USE_SAFE_TRACE, defined as 1 << 31 in tracy.h. The shift happens in
32-bit signed int arithmetic, so the int bit pattern is 2 ^ 31 (value
-2 ^ 31), and sign extension to a 64-bit C long yields the 33-bit pattern
0xFFFFFFFF80000000. -/
def TRACY_USE_SAFE_TRACE : Nat := c_int_widen_long (c_int_shl 1 31)

/-- The union of the three known option masks of tracy.h, as 64-bit C long
bit patterns. -/
def tracy_known_opts : Nat :=
  TRACY_TRACE_CHILDREN ||| TRACY_VERBOSE ||| TRACY_USE_SAFE_TRACE

/-- The 64-bit complement of the known option masks: the unknown option bits. -/
def tracy_unknown_mask : Nat := (2 ^ 64 - 1) ^^^ tracy_known_opts

/-- The session record, following struct tracy in tracy.h; only the option
word matters to the claims about session creation. -/
structure tracy where
  opt : Nat
deriving DecidableEq

/-- Modelled from the spec: tracy_init is declared in tracy.h but its
implementation is not under src. The design document's options bitset demands
that unknown bits be rejected; the option word is a C long, modelled as its
64-bit bit pattern (LP64). -/
def tracy_init (opt : Nat) : Option tracy :=
  if (opt % 2 ^ 64) &&& tracy_unknown_mask = 0 then some { opt := opt % 2 ^ 64 }
  else none

/-- The eight exact combinations of the three option flags of tracy.h, each
taken at its 64-bit C long bit pattern. -/
def tracy_option_words : List Nat :=
  [0, TRACY_TRACE_CHILDREN, TRACY_VERBOSE, TRACY_USE_SAFE_TRACE,
   TRACY_TRACE_CHILDREN ||| TRACY_VERBOSE,
   TRACY_TRACE_CHILDREN ||| TRACY_USE_SAFE_TRACE,
   TRACY_VERBOSE ||| TRACY_USE_SAFE_TRACE,
   TRACY_TRACE_CHILDREN ||| TRACY_VERBOSE ||| TRACY_USE_SAFE_TRACE]

/-- Whether an option word is an exact combination (bitwise OR of a subset)
of the three known option flags. -/
def is_option_combination (opt : Nat) : Bool := tracy_option_words.contains opt

/-- Modelled from the spec: a freshly registered child starts in the Pre
state of the per-child syscall state machine. -/
def initial_pre_syscall : Bool := true

/-- The kinds of kernel stop notifications classified by tracy_wait_event
(implementation not under src; kinds follow the design document's event
loop classification). -/
inductive stop_kind
  | syscall_stop
  | signal_stop
  | group_stop
  | event_stop
  | exit_stop
deriving DecidableEq

/-- Modelled from the spec: tracy_wait_event toggles the child's pre_syscall
flag on syscall-entry/exit stops and leaves it unchanged on every other kind
of stop. -/
def wait_event_flag (b : Bool) (k : stop_kind) : Bool :=
  if k = stop_kind.syscall_stop then !b else b

/-- The pre/post flags of the syscall events delivered for one child along a
sequence of stops: each syscall stop emits the current flag (true for an
entry) and advances the flag by wait_event_flag. -/
def syscall_flags (b : Bool) : List stop_kind → List Bool
  | [] => []
  | k :: ks =>
    (if k = stop_kind.syscall_stop then [b] else []) ++
      syscall_flags (wait_event_flag b k) ks

/-- A list of pre/post flags strictly alternates starting from b. -/
def alternating_from : Bool → List Bool → Prop
  | _, [] => True
  | b, x :: l => x = b ∧ alternating_from (!b) l

/-- The recoverable error kinds of the design document's error taxonomy. -/
inductive tracy_error
  | injection_busy
  | child_gone
  | bad_argument
  | kernel_refused
deriving DecidableEq

/-- Modelled from the spec: the kernel executes whatever syscall number is in
the syscall-number register, writing kret of that number into the return-value
register. Returns the new register file and the syscall number the kernel
executed. -/
def kernel_execute (kret : Int → Int) (r : tracy_sc_args) : tracy_sc_args × Int :=
  ({ r with return_code := kret r.syscall }, r.syscall)

/-- Modelled from the spec: tracy_deny_syscall is declared in tracy.h but its
implementation is not under src. At a pre-stop it records the originally
requested syscall number in denied_nr, rewrites the syscall-number register to
the harmless no-op syscall noop, and stashes the caller-supplied substitute
return value; at any other stop it fails. -/
def tracy_deny_syscall (noop sub : Int) (c : tracy_child) : Option tracy_child :=
  if c.pre_syscall then
    some { c with
      denied_nr := c.regs.syscall,
      denied_ret := sub,
      denying := true,
      regs := { c.regs with syscall := noop } }
  else none

/-- Modelled from the spec: the syscall-stop handling of tracy_wait_event for
one child. The flag is toggled once; at a post-stop completing a denial the
substitute return value is written into the return-value register. Returns
the child after the stop and whether the delivered event is an entry event. -/
def handle_syscall_stop (c : tracy_child) : tracy_child × Bool :=
  if c.pre_syscall then
    ({ c with pre_syscall := false }, true)
  else if c.denying then
    ({ c with
        pre_syscall := true,
        regs := { c.regs with return_code := c.denied_ret },
        denying := false }, false)
  else ({ c with pre_syscall := true }, false)

/-- Modelled from the spec: the full denial sequence for one syscall. The
hook denies at the pre-stop, the entry stop completes, the kernel executes
the rewritten call, and the exit stop is handled. Returns the final child,
the syscall number the kernel executed, and whether the exit event is
delivered to hook dispatch (the post-hook fires). -/
def deny_scenario (kret : Int → Int) (noop sub : Int) (c : tracy_child) :
    Option (tracy_child × Int × Bool) :=
  match tracy_deny_syscall noop sub c with
  | none => none
  | some c1 =>
    let c2 := (handle_syscall_stop c1).1
    let kr := kernel_execute kret c2.regs
    let c3 := { c2 with regs := kr.1 }
    let step := handle_syscall_stop c3
    some (step.1, kr.2, !step.2)

/-- Modelled from the spec: the common entry of the injection operations
declared in tracy.h (implementation not under src). If an injection is
already in flight the child is left unchanged and InjectionBusy is reported;
otherwise the register file is snapshotted, the instruction pointer is
rewound by the trap width when starting at a post-stop, and the injected
syscall number and arguments are written. -/
def tracy_inject_start (opsize : Int) (isPre : Bool) (c : tracy_child)
    (nr : Int) (a : tracy_sc_args) (cb : Nat) : tracy_child × Option tracy_error :=
  if c.inj.injecting then (c, some tracy_error.injection_busy)
  else
    let snap := c.regs
    let r1 := if isPre then c.regs else { c.regs with ip := c.regs.ip - opsize }
    let r2 := { r1 with
      syscall := nr, a0 := a.a0, a1 := a.a1, a2 := a.a2,
      a3 := a.a3, a4 := a.a4, a5 := a.a5 }
    ({ c with
        regs := r2,
        inj := { injecting := true, injected := false, pre := isPre,
                 syscall_num := nr, reg := snap, cb := cb } }, none)

/-- tracy_inject_syscall_pre_start from tracy.h: start an asynchronous
injection at a pre-stop. -/
def tracy_inject_syscall_pre_start (opsize : Int) (c : tracy_child)
    (nr : Int) (a : tracy_sc_args) (cb : Nat) : tracy_child × Option tracy_error :=
  tracy_inject_start opsize true c nr a cb

/-- tracy_inject_syscall_post_start from tracy.h: start an asynchronous
injection at a post-stop. -/
def tracy_inject_syscall_post_start (opsize : Int) (c : tracy_child)
    (nr : Int) (a : tracy_sc_args) (cb : Nat) : tracy_child × Option tracy_error :=
  tracy_inject_start opsize false c nr a cb

/-- Modelled from the spec: while an injection is in flight, tracy_wait_event
consumes the injected call's entry and exit stops and hides them from user
hooks; at the exit stop it collects the return code, restores the snapshot
(rewinding the instruction pointer by the trap width when the injection
started at a pre-stop, so the original syscall re-executes), and clears the
injection flags. The returned value is the return code handed to the
callback, present only at the exit stop. -/
def tracy_injection_stop (opsize : Int) (c : tracy_child) :
    tracy_child × Option Int :=
  if c.inj.injecting then
    if c.inj.injected then
      let ret := c.regs.return_code
      let snap := c.inj.reg
      let rfin := if c.inj.pre then { snap with ip := snap.ip - opsize } else snap
      ({ c with
          pre_syscall := !c.pre_syscall,
          regs := rfin,
          inj := { c.inj with injecting := false, injected := false } }, some ret)
    else
      ({ c with
          pre_syscall := !c.pre_syscall,
          inj := { c.inj with injected := true } }, none)
  else (c, none)

/-- Modelled from the spec: a complete injection run (the shape shared by the
synchronous call and the asynchronous pre_start/post_start plus the event
loop): start, consume the injected call's entry stop, let the kernel execute
the injected call, consume its exit stop restoring the snapshot, and return
the injected call's return code. -/
def tracy_inject_async_run (opsize : Int) (kret : Int → Int) (isPre : Bool)
    (c : tracy_child) (nr : Int) (a : tracy_sc_args) (cb : Nat) :
    tracy_child × Except tracy_error Int :=
  match tracy_inject_start opsize isPre c nr a cb with
  | (c0, some e) => (c0, Except.error e)
  | (c1, none) =>
    let c2 := (tracy_injection_stop opsize c1).1
    let r3 := (kernel_execute kret c2.regs).1
    let step := tracy_injection_stop opsize { c2 with regs := r3 }
    match step.2 with
    | some ret => (step.1, Except.ok ret)
    | none => (step.1, Except.error tracy_error.kernel_refused)

/-- Modelled from the spec: tracy_inject_syscall, the synchronous injection
declared in tracy.h (implementation not under src); it runs the whole
injection at the current stop kind and returns the injected return code. -/
def tracy_inject_syscall (opsize : Int) (kret : Int → Int) (c : tracy_child)
    (nr : Int) (a : tracy_sc_args) : tracy_child × Except tracy_error Int :=
  tracy_inject_async_run opsize kret c.pre_syscall c nr a 0

/-- The hook table of a session, following struct tracy in tracy.h: a mapping
from syscall number to a registered hook (modelled as an abstract identifier)
plus an optional default hook. -/
structure hook_table where
  hooks : List (Int × Nat)
  defhook : Option Nat
deriving DecidableEq

/-- Lookup of the hook registered for a syscall number. -/
def find_hook (t : hook_table) (nr : Int) : Option Nat :=
  (t.hooks.find? (fun p => p.1 == nr)).map (fun p => p.2)

/-- Modelled from the spec: the dispatch policy of tracy_execute_hook
(implementation not under src): look up by the current syscall number, fall
back to the default hook, and return TRACY_HOOK_NOHOOK when neither exists.
hookRun gives each registered hook's return value on the current event. -/
def tracy_execute_hook (hookRun : Nat → Int) (t : hook_table) (nr : Int) : Int :=
  match find_hook t nr with
  | some h => hookRun h
  | none =>
    match t.defhook with
    | some d => hookRun d
    | none => TRACY_HOOK_NOHOOK

/-- What a teardown path does to one child. -/
inductive teardown_action
  | detach
  | kill
deriving DecidableEq

/-- Modelled from the spec: the graceful teardown tracy_free detaches every
child. -/
def tracy_free_child_action (_ : tracy_child) : teardown_action :=
  teardown_action.detach

/-- Modelled from the spec: tracy_quit kills or detaches each child according
to its attached flag; attached children are detached, never killed. -/
def tracy_quit_child_action (c : tracy_child) : teardown_action :=
  if c.attached then teardown_action.detach else teardown_action.kill

/-- Kernel notifications reaching the event loop that matter to newborn
discovery: a fork/clone trace event (or SafeFork discovery) carrying the
newborn's pid, or a stop of some pid that would surface as a user-visible
event. -/
inductive loop_notice
  | fork_event (parent newborn : Int)
  | stop (pid : Int)
deriving DecidableEq

/-- The observable actions of the event loop relevant to the child-creation
lifecycle: registering a pid in the registry, invoking the child-creation
callback for a pid, and delivering a user-visible event for a pid. -/
inductive loop_action
  | register (pid : Int)
  | creation_callback (pid : Int)
  | user_event (pid : Int)
deriving DecidableEq

/-- Modelled from the spec: how the event loop processes one notification
given the set of registered pids. A fork event registers the newborn (if not
already present) and immediately invokes the child-creation callback; a stop
of a registered pid is delivered as a user-visible event, while a stop of an
unregistered pid is handled internally and hidden. -/
def loop_process (st : List Int) : loop_notice → List Int × List loop_action
  | loop_notice.fork_event _ nb =>
    if nb ∈ st then (st, [])
    else (nb :: st, [loop_action.register nb, loop_action.creation_callback nb])
  | loop_notice.stop p =>
    (st, if p ∈ st then [loop_action.user_event p] else [])

/-- The action trace produced by the event loop over a list of notifications,
starting from a set of registered pids. -/
def loop_run (st : List Int) : List loop_notice → List loop_action
  | [] => []
  | n :: ns => (loop_process st n).2 ++ loop_run (loop_process st n).1 ns

/-- Whether a notification is a fork event whose newborn is pid. -/
def is_fork_of (pid : Int) : loop_notice → Bool
  | loop_notice.fork_event _ nb => nb == pid
  | _ => false

/-- How many creation callbacks for pid a trace contains. -/
def cb_count (pid : Int) (l : List loop_action) : Nat :=
  l.countP (fun a =>
    match a with
    | loop_action.creation_callback q => q == pid
    | _ => false)

/-- The lifecycle ordering check for one pid over an action trace: every
creation callback for pid must come after pid's registration and must be the
only one, and every user-visible event for pid must come after pid's creation
callback. The two booleans track whether a registration and a callback for
pid have been seen. -/
def ordering_ok (pid : Int) : Bool → Bool → List loop_action → Bool
  | _, _, [] => true
  | reg, cbs, loop_action.register q :: l =>
    ordering_ok pid (reg || (q == pid)) cbs l
  | reg, cbs, loop_action.creation_callback q :: l =>
    if q == pid then reg && !cbs && ordering_ok pid reg true l
    else ordering_ok pid reg cbs l
  | reg, cbs, loop_action.user_event q :: l =>
    if q == pid then cbs && ordering_ok pid reg cbs l
    else ordering_ok pid reg cbs l

/-- Modelled from the spec: tracy_write_mem (implementation not under src)
writes the given bytes into tracee memory at dest and reports the number of
bytes written; tracee memory is modelled as a byte map. -/
def tracy_write_mem (mem : Nat → UInt8) (dest : Nat) (src : List UInt8) :
    (Nat → UInt8) × Nat :=
  (fun addr =>
    if dest ≤ addr ∧ addr < dest + src.length then src.getD (addr - dest) 0
    else mem addr,
   src.length)

/-- Modelled from the spec: tracy_read_mem (implementation not under src)
reads n bytes of tracee memory starting at src and reports the number of
bytes read. -/
def tracy_read_mem (mem : Nat → UInt8) (src : Nat) (n : Nat) :
    List UInt8 × Nat :=
  ((List.range n).map (fun i => mem (src + i)), n)

/-- A zeroed register file, used by concrete witnesses. -/
def sc_zero : tracy_sc_args :=
  { a0 := 0, a1 := 0, a2 := 0, a3 := 0, a4 := 0, a5 := 0,
    return_code := 0, syscall := 1, ip := 100, sp := 200 }

/-- An idle injection context, used by concrete witnesses. -/
def inj_idle : tracy_inject_data :=
  { injecting := false, injected := false, pre := false,
    syscall_num := 0, reg := sc_zero, cb := 0 }

/-- A concrete attached child at a pre-stop with no injection in flight,
used by concrete witnesses. -/
def child_base : tracy_child :=
  { pid := 7, attached := true, pre_syscall := true, mem_fd := -1,
    denied_nr := 0, denied_ret := 0, denying := false,
    inj := inj_idle, regs := sc_zero }

/-- A concrete child with an injection already in flight, used by concrete
witnesses. -/
def child_busy : tracy_child :=
  { child_base with inj := { inj_idle with injecting := true } }

/-- Disjoint masks ignore each other under bitwise OR: setting the bits of m2
does not change the result of testing against m1. -/
theorem land_lor_of_disjoint (m1 m2 : Nat) (h : m2 &&& m1 = 0) (opt : Nat) :
    (opt ||| m2) &&& m1 = opt &&& m1 := by
  apply Nat.eq_of_testBit_eq
  intro k
  have hk : (m2.testBit k && m1.testBit k) = false := by
    have h2 := congrArg (fun x => Nat.testBit x k) h
    simpa [Nat.testBit_land] using h2
  simp only [Nat.testBit_land, Nat.testBit_lor]
  cases h1 : m1.testBit k <;> cases h2 : m2.testBit k <;> simp_all

/-- Disjoint masks ignore each other under bit clearing: clearing the bits of
m2 with the 64-bit complement does not change the result of testing against a
mask m1 that fits in 64 bits. -/
theorem land_clear_of_disjoint (m1 m2 : Nat) (hm : m1 < 2 ^ 64)
    (h : m2 &&& m1 = 0) (opt : Nat) :
    (opt &&& ((2 ^ 64 - 1) ^^^ m2)) &&& m1 = opt &&& m1 := by
  apply Nat.eq_of_testBit_eq
  intro k
  have hk : (m2.testBit k && m1.testBit k) = false := by
    have h2 := congrArg (fun x => Nat.testBit x k) h
    simpa [Nat.testBit_land] using h2
  by_cases hk64 : k < 64
  · have hones : (2 ^ 64 - 1 : Nat).testBit k = true := by
      rw [Nat.testBit_two_pow_sub_one]
      simpa using hk64
    simp only [Nat.testBit_land, Nat.testBit_xor, hones]
    cases h1 : m1.testBit k <;> cases h2 : m2.testBit k <;> simp_all
  · have h1 : m1.testBit k = false := by
      apply Nat.testBit_eq_false_of_lt
      calc m1 < 2 ^ 64 := hm
        _ ≤ 2 ^ k := Nat.pow_le_pow_right (by omega) (by omega)
    simp [Nat.testBit_land, h1]

/-- Claim C10: the three session option constants of tracy.h are the
single-bit masks 2 ^ 0, 2 ^ 1 and 2 ^ 31 in the 32-bit signed int arithmetic
in which they are computed; widened to the 64-bit long option word they stay
pairwise disjoint, so testing any one flag in an option word opt is unaffected
by setting or clearing either of the other two flags. -/
theorem option_masks_disjoint :
    (c_int_shl 1 0 = 2 ^ 0 ∧ c_int_shl 1 1 = 2 ^ 1 ∧ c_int_shl 1 31 = 2 ^ 31) ∧
    (TRACY_TRACE_CHILDREN &&& TRACY_VERBOSE = 0 ∧
     TRACY_TRACE_CHILDREN &&& TRACY_USE_SAFE_TRACE = 0 ∧
     TRACY_VERBOSE &&& TRACY_USE_SAFE_TRACE = 0) ∧
    (∀ opt : Nat,
      ((opt ||| TRACY_VERBOSE) &&& TRACY_TRACE_CHILDREN =
        opt &&& TRACY_TRACE_CHILDREN) ∧
      ((opt ||| TRACY_USE_SAFE_TRACE) &&& TRACY_TRACE_CHILDREN =
        opt &&& TRACY_TRACE_CHILDREN) ∧
      ((opt ||| TRACY_TRACE_CHILDREN) &&& TRACY_VERBOSE =
        opt &&& TRACY_VERBOSE) ∧
      ((opt ||| TRACY_USE_SAFE_TRACE) &&& TRACY_VERBOSE =
        opt &&& TRACY_VERBOSE) ∧
      ((opt ||| TRACY_TRACE_CHILDREN) &&& TRACY_USE_SAFE_TRACE =
        opt &&& TRACY_USE_SAFE_TRACE) ∧
      ((opt ||| TRACY_VERBOSE) &&& TRACY_USE_SAFE_TRACE =
        opt &&& TRACY_USE_SAFE_TRACE) ∧
      ((opt &&& ((2 ^ 64 - 1) ^^^ TRACY_VERBOSE)) &&& TRACY_TRACE_CHILDREN =
        opt &&& TRACY_TRACE_CHILDREN) ∧
      ((opt &&& ((2 ^ 64 - 1) ^^^ TRACY_USE_SAFE_TRACE)) &&& TRACY_TRACE_CHILDREN =
        opt &&& TRACY_TRACE_CHILDREN) ∧
      ((opt &&& ((2 ^ 64 - 1) ^^^ TRACY_TRACE_CHILDREN)) &&& TRACY_VERBOSE =
        opt &&& TRACY_VERBOSE) ∧
      ((opt &&& ((2 ^ 64 - 1) ^^^ TRACY_USE_SAFE_TRACE)) &&& TRACY_VERBOSE =
        opt &&& TRACY_VERBOSE) ∧
      ((opt &&& ((2 ^ 64 - 1) ^^^ TRACY_TRACE_CHILDREN)) &&& TRACY_USE_SAFE_TRACE =
        opt &&& TRACY_USE_SAFE_TRACE) ∧
      ((opt &&& ((2 ^ 64 - 1) ^^^ TRACY_VERBOSE)) &&& TRACY_USE_SAFE_TRACE =
        opt &&& TRACY_USE_SAFE_TRACE)) := by
  refine ⟨by decide, ⟨by decide, by decide, by decide⟩, ?_⟩
  intro opt
  have d12 : TRACY_VERBOSE &&& TRACY_TRACE_CHILDREN = 0 := by decide
  have d13 : TRACY_USE_SAFE_TRACE &&& TRACY_TRACE_CHILDREN = 0 := by decide
  have d21 : TRACY_TRACE_CHILDREN &&& TRACY_VERBOSE = 0 := by decide
  have d23 : TRACY_USE_SAFE_TRACE &&& TRACY_VERBOSE = 0 := by decide
  have d31 : TRACY_TRACE_CHILDREN &&& TRACY_USE_SAFE_TRACE = 0 := by decide
  have d32 : TRACY_VERBOSE &&& TRACY_USE_SAFE_TRACE = 0 := by decide
  have b1 : TRACY_TRACE_CHILDREN < 2 ^ 64 := by decide
  have b2 : TRACY_VERBOSE < 2 ^ 64 := by decide
  have b3 : TRACY_USE_SAFE_TRACE < 2 ^ 64 := by decide
  exact ⟨land_lor_of_disjoint _ _ d12 opt, land_lor_of_disjoint _ _ d13 opt,
    land_lor_of_disjoint _ _ d21 opt, land_lor_of_disjoint _ _ d23 opt,
    land_lor_of_disjoint _ _ d31 opt, land_lor_of_disjoint _ _ d32 opt,
    land_clear_of_disjoint _ _ b1 d12 opt, land_clear_of_disjoint _ _ b1 d13 opt,
    land_clear_of_disjoint _ _ b2 d21 opt, land_clear_of_disjoint _ _ b2 d23 opt,
    land_clear_of_disjoint _ _ b3 d31 opt, land_clear_of_disjoint _ _ b3 d32 opt⟩

/-- Claim C8 counterexample: the option word 2 ^ 31 is not a combination of
the three known flags (TRACY_USE_SAFE_TRACE widens to the 64-bit long pattern
0xFFFFFFFF80000000, not 2 ^ 31), yet tracy_init accepts it, because every one
of its bits lies inside the union of the known masks. -/
theorem tracy_init_accepts_nonflag_word :
    (tracy_init (2 ^ 31)).isSome = true ∧ is_option_combination (2 ^ 31) = false :=
  ⟨by decide, by decide⟩

/-- Claim C8 (amended): tracy_init accepts exactly the option words with no
bits outside the union of the three known flag masks: every exact combination
of the three flags is accepted, and any word containing an unknown bit is
rejected. -/
theorem tracy_init_unknown_bits_rejected :
    ∀ opt : Nat,
      (is_option_combination opt = true → tracy_init opt = some { opt := opt }) ∧
      ((opt % 2 ^ 64) &&& tracy_unknown_mask ≠ 0 → tracy_init opt = none) ∧
      ((tracy_init opt).isSome = true ↔ (opt % 2 ^ 64) &&& tracy_unknown_mask = 0) := by
  intro opt
  refine ⟨?_, ?_, ?_⟩
  · intro h
    have hmem : opt ∈ tracy_option_words :=
      List.mem_of_elem_eq_true h
    simp only [tracy_option_words, List.mem_cons, List.mem_singleton,
      List.not_mem_nil, or_false] at hmem
    rcases hmem with rfl | rfl | rfl | rfl | rfl | rfl | rfl | rfl <;> decide
  · intro h
    simp only [tracy_init]
    rw [if_neg h]
  · simp only [tracy_init]
    by_cases hc : (opt % 2 ^ 64) &&& tracy_unknown_mask = 0
    · simp [hc]
    · simp [hc]

/-- Witness for the amended Claim C8 at concrete words: the unknown bit 2 ^ 5
is rejected and the pure flag word TRACY_VERBOSE is accepted. -/
theorem tracy_init_unknown_bits_rejected_witness :
    tracy_init (2 ^ 5) = none ∧
    tracy_init TRACY_VERBOSE = some { opt := TRACY_VERBOSE } :=
  ⟨(tracy_init_unknown_bits_rejected (2 ^ 5)).2.1 (by decide),
   (tracy_init_unknown_bits_rejected TRACY_VERBOSE).1 (by decide)⟩

/-- Claim C9: writing a buffer of n bytes with tracy_write_mem and then
reading the same range back with tracy_read_mem returns exactly the bytes
written, and both operations report the full length. -/
theorem write_read_roundtrip :
    ∀ (mem : Nat → UInt8) (dest : Nat) (bytes : List UInt8),
      (tracy_read_mem (tracy_write_mem mem dest bytes).1 dest bytes.length).1 =
        bytes ∧
      (tracy_write_mem mem dest bytes).2 = bytes.length ∧
      (tracy_read_mem (tracy_write_mem mem dest bytes).1 dest bytes.length).2 =
        bytes.length := by
  intro mem dest bytes
  refine ⟨?_, rfl, rfl⟩
  apply List.ext_getElem
  · simp [tracy_read_mem]
  · intro i h1 h2
    simp only [tracy_read_mem, tracy_write_mem, List.getElem_map,
      List.getElem_range]
    rw [if_pos (by simp [tracy_read_mem] at h1; omega)]
    have hidx : dest + i - dest = i := by omega
    rw [hidx]
    exact List.getD_eq_getElem bytes 0 h2

/-- The syscall-event flags emitted from any starting flag alternate. -/
theorem alternating_from_syscall_flags :
    ∀ (ks : List stop_kind) (b : Bool), alternating_from b (syscall_flags b ks) := by
  intro ks
  induction ks with
  | nil => intro b; simp [syscall_flags, alternating_from]
  | cons k ks ih =>
    intro b
    by_cases hk : k = stop_kind.syscall_stop
    · subst hk
      simpa [syscall_flags, wait_event_flag, alternating_from] using ih (!b)
    · simpa [syscall_flags, wait_event_flag, hk] using ih b

/-- Claim C2: the pre_syscall flag starts in the Pre state, the event loop
toggles it exactly on syscall-entry/exit stops and on no other stop kind,
and consequently the syscall events delivered for one child strictly
alternate between entries and exits, starting with an entry. -/
theorem pre_syscall_alternation :
    (∀ (b : Bool) (k : stop_kind),
      wait_event_flag b k ≠ b ↔ k = stop_kind.syscall_stop) ∧
    (∀ ks : List stop_kind,
      alternating_from initial_pre_syscall (syscall_flags initial_pre_syscall ks)) := by
  constructor
  · intro b k
    constructor
    · intro h
      by_contra hk
      simp [wait_event_flag, hk] at h
    · intro hk
      subst hk
      simp [wait_event_flag]
  · intro ks
    exact alternating_from_syscall_flags ks initial_pre_syscall

/-- Claim C5: hook dispatch uses the hook registered for the current syscall
number, falls back to the default hook when none is registered, and returns
TRACY_HOOK_NOHOOK exactly when neither exists, given that registered hooks
never return TRACY_HOOK_NOHOOK (it is not a legal hook return value). -/
theorem execute_hook_dispatch :
    ∀ (hookRun : Nat → Int) (t : hook_table) (nr : Int),
      (∀ h, find_hook t nr = some h →
        tracy_execute_hook hookRun t nr = hookRun h) ∧
      (∀ d, find_hook t nr = none → t.defhook = some d →
        tracy_execute_hook hookRun t nr = hookRun d) ∧
      (find_hook t nr = none → t.defhook = none →
        tracy_execute_hook hookRun t nr = TRACY_HOOK_NOHOOK) ∧
      ((∀ h, hookRun h ≠ TRACY_HOOK_NOHOOK) →
        (tracy_execute_hook hookRun t nr = TRACY_HOOK_NOHOOK ↔
          (find_hook t nr = none ∧ t.defhook = none))) := by
  intro hookRun t nr
  refine ⟨?_, ?_, ?_, ?_⟩
  · intro h hh
    simp [tracy_execute_hook, hh]
  · intro d hn hd
    simp [tracy_execute_hook, hn, hd]
  · intro hn hd
    simp [tracy_execute_hook, hn, hd]
  · intro hlegal
    constructor
    · intro heq
      cases hf : find_hook t nr with
      | some h =>
        simp [tracy_execute_hook, hf] at heq
        exact absurd heq (hlegal h)
      | none =>
        cases hd : t.defhook with
        | some d =>
          simp [tracy_execute_hook, hf, hd] at heq
          exact absurd heq (hlegal d)
        | none => exact ⟨rfl, rfl⟩
    · rintro ⟨hn, hd⟩
      simp [tracy_execute_hook, hn, hd]

/-- Witness for Claim C5: on an empty hook table with no default hook,
dispatch returns TRACY_HOOK_NOHOOK. -/
theorem execute_hook_dispatch_witness :
    tracy_execute_hook (fun _ => TRACY_HOOK_CONTINUE)
      { hooks := [], defhook := none } 5 = TRACY_HOOK_NOHOOK :=
  (execute_hook_dispatch (fun _ => TRACY_HOOK_CONTINUE)
    { hooks := [], defhook := none } 5).2.2.1 rfl rfl

/-- Claim C6: a child whose attached flag is set is never killed by a
teardown path: both the graceful teardown of tracy_free and the abrupt
tracy_quit detach it instead of invoking the kill primitive. -/
theorem attached_never_killed :
    ∀ c : tracy_child, c.attached = true →
      tracy_free_child_action c = teardown_action.detach ∧
      tracy_quit_child_action c = teardown_action.detach ∧
      tracy_free_child_action c ≠ teardown_action.kill ∧
      tracy_quit_child_action c ≠ teardown_action.kill := by
  intro c h
  refine ⟨rfl, ?_, ?_, ?_⟩ <;>
    simp [tracy_free_child_action, tracy_quit_child_action, h]

/-- Witness for Claim C6: the concrete attached child is detached, not
killed, by tracy_quit. -/
theorem attached_never_killed_witness :
    tracy_quit_child_action child_base = teardown_action.detach :=
  (attached_never_killed child_base rfl).2.1

/-- Claim C1: denying a syscall at a pre-stop records the originally
requested syscall number in denied_nr; the kernel then executes the harmless
no-op instead of the denied syscall; at the subsequent post-stop the
return-value register holds the caller-supplied substitute, the state machine
is back in Pre, and the exit event is delivered to hook dispatch (the
post-hook still fires, witnessed by the final true component). -/
theorem tracy_deny_syscall_spec :
    ∀ (kret : Int → Int) (noop sub : Int) (c : tracy_child),
      c.pre_syscall = true → c.regs.syscall ≠ noop →
      tracy_deny_syscall noop sub c =
        some { c with
          denied_nr := c.regs.syscall, denied_ret := sub, denying := true,
          regs := { c.regs with syscall := noop } } ∧
      deny_scenario kret noop sub c =
        some ({ c with
          denied_nr := c.regs.syscall, denied_ret := sub, denying := false,
          pre_syscall := true,
          regs := { c.regs with syscall := noop, return_code := sub } },
          noop, true) ∧
      noop ≠ c.regs.syscall := by
  intro kret noop sub c hpre hne
  refine ⟨?_, ?_, fun h => hne h.symm⟩
  · simp [tracy_deny_syscall, hpre]
  · simp [deny_scenario, tracy_deny_syscall, handle_syscall_stop,
      kernel_execute, hpre]

/-- Witness for Claim C1 at a concrete child and kernel: the denied call 1 is
recorded, the kernel runs the no-op 39, and the substitute -1 lands in the
return-value register at the post-stop, which is delivered to hooks. -/
theorem tracy_deny_syscall_spec_witness :
    deny_scenario (fun n => n + 1000) 39 (-1) child_base =
      some ({ child_base with
        denied_nr := child_base.regs.syscall, denied_ret := -1,
        denying := false, pre_syscall := true,
        regs := { child_base.regs with syscall := 39, return_code := -1 } },
        39, true) :=
  (tracy_deny_syscall_spec (fun n => n + 1000) 39 (-1) child_base rfl
    (by decide)).2.1

/-- Claim C3: a completed injection run (the shape shared by the synchronous
call and the asynchronous pre_start/post_start with the event loop) leaves
the tracee's register file bitwise-equal to the pre-injection snapshot,
except that when the injection started at a pre-stop the instruction pointer
is rewound by the trap width so the original, natural syscall re-executes;
the injected call's return code is reported and the injection context is
cleared. -/
theorem injection_restores_registers :
    ∀ (opsize : Int) (kret : Int → Int) (isPre : Bool) (c : tracy_child)
      (nr : Int) (a : tracy_sc_args) (cb : Nat),
      c.inj.injecting = false →
      (tracy_inject_async_run opsize kret isPre c nr a cb).2 =
        Except.ok (kret nr) ∧
      (tracy_inject_async_run opsize kret isPre c nr a cb).1.regs =
        (if isPre then { c.regs with ip := c.regs.ip - opsize } else c.regs) ∧
      (tracy_inject_async_run opsize kret isPre c nr a cb).1.pre_syscall =
        c.pre_syscall ∧
      (tracy_inject_async_run opsize kret isPre c nr a cb).1.inj.injecting =
        false ∧
      tracy_inject_syscall opsize kret c nr a =
        tracy_inject_async_run opsize kret c.pre_syscall c nr a 0 := by
  intro opsize kret isPre c nr a cb hfree
  refine ⟨?_, ?_, ?_, ?_, rfl⟩ <;>
    cases isPre <;>
      simp [tracy_inject_async_run, tracy_inject_start, tracy_injection_stop,
        kernel_execute, hfree]

/-- Witness for Claim C3: a concrete pre-stop injection restores the register
file with the instruction pointer rewound by the trap width. -/
theorem injection_restores_registers_witness :
    (tracy_inject_async_run 4 (fun _ => 7) true child_base 42 sc_zero 0).1.regs =
      { child_base.regs with ip := child_base.regs.ip - 4 } :=
  (injection_restores_registers 4 (fun _ => 7) true child_base 42 sc_zero 0
    rfl).2.1

/-- Claim C4: the injecting flag gates entry to injection: while an injection
is in flight, tracy_inject_syscall, tracy_inject_syscall_pre_start and
tracy_inject_syscall_post_start all fail with InjectionBusy and leave the
child's state unchanged. -/
theorem injection_busy_gates_entry :
    ∀ (opsize : Int) (kret : Int → Int) (c : tracy_child) (nr : Int)
      (a : tracy_sc_args) (cb : Nat),
      c.inj.injecting = true →
      tracy_inject_syscall_pre_start opsize c nr a cb =
        (c, some tracy_error.injection_busy) ∧
      tracy_inject_syscall_post_start opsize c nr a cb =
        (c, some tracy_error.injection_busy) ∧
      tracy_inject_syscall opsize kret c nr a =
        (c, Except.error tracy_error.injection_busy) := by
  intro opsize kret c nr a cb hbusy
  refine ⟨?_, ?_, ?_⟩ <;>
    simp [tracy_inject_syscall_pre_start, tracy_inject_syscall_post_start,
      tracy_inject_syscall, tracy_inject_async_run, tracy_inject_start, hbusy]

/-- Witness for Claim C4: starting an injection on the concrete busy child
fails with InjectionBusy and returns the child unchanged. -/
theorem injection_busy_gates_entry_witness :
    tracy_inject_syscall_pre_start 4 child_busy 42 sc_zero 0 =
      (child_busy, some tracy_error.injection_busy) :=
  (injection_busy_gates_entry 4 (fun _ => 0) child_busy 42 sc_zero 0 rfl).1

/-- Invariant of the event loop: starting from a registry where pid's
callback has been emitted exactly when pid is registered, the action trace
keeps registration before the callback, emits at most one callback, and
delivers no user-visible event for pid before its callback. -/
theorem ordering_ok_loop_run (pid : Int) :
    ∀ (ns : List loop_notice) (st : List Int) (reg cbs : Bool),
      (cbs = true ↔ pid ∈ st) → (cbs = true → reg = true) →
      ordering_ok pid reg cbs (loop_run st ns) = true := by
  intro ns
  induction ns with
  | nil =>
    intro st reg cbs h1 h2
    simp [loop_run, ordering_ok]
  | cons n ns ih =>
    intro st reg cbs h1 h2
    cases n with
    | fork_event p nb =>
      by_cases hin : nb ∈ st
      · simpa [loop_run, loop_process, hin] using ih st reg cbs h1 h2
      · by_cases hpid : nb = pid
        · subst hpid
          have hcbs : cbs = false := by
            cases hc : cbs
            · rfl
            · exact absurd (h1.mp hc) hin
          subst hcbs
          simp [loop_run, loop_process, hin, ordering_ok]
          exact ih (nb :: st) true true (by simp) (fun _ => rfl)
        · simp [loop_run, loop_process, hin, ordering_ok, hpid]
          refine ih (nb :: st) (reg || (nb == pid)) cbs ?_ ?_
          · constructor
            · intro hc
              exact List.mem_cons_of_mem _ (h1.mp hc)
            · intro hmem
              rcases List.mem_cons.mp hmem with heq | hmem2
              · exact absurd heq.symm hpid
              · exact h1.mpr hmem2
          · intro hc
            simp [h2 hc]
    | stop p =>
      by_cases hin : p ∈ st
      · by_cases hpid : p = pid
        · subst hpid
          have hcbs : cbs = true := h1.mpr hin
          subst hcbs
          simp [loop_run, loop_process, hin, ordering_ok]
          exact ih st reg true h1 h2
        · simp [loop_run, loop_process, hin, ordering_ok, hpid]
          exact ih st reg cbs h1 h2
      · simpa [loop_run, loop_process, hin] using ih st reg cbs h1 h2

/-- A pid already registered receives no further creation callback. -/
theorem cb_count_registered (pid : Int) :
    ∀ (ns : List loop_notice) (st : List Int), pid ∈ st →
      cb_count pid (loop_run st ns) = 0 := by
  intro ns
  induction ns with
  | nil =>
    intro st h
    simp [loop_run, cb_count]
  | cons n ns ih =>
    intro st h
    cases n with
    | fork_event p nb =>
      by_cases hin : nb ∈ st
      · simpa [loop_run, loop_process, hin] using ih st h
      · have hnb : ¬(nb == pid) = true := by
          simp
          intro he
          exact hin (he ▸ h)
        simp [loop_run, loop_process, hin, cb_count, List.countP_cons, hnb]
        have := ih (nb :: st) (List.mem_cons_of_mem _ h)
        simpa [cb_count] using this
    | stop p =>
      by_cases hin : p ∈ st
      · simp [loop_run, loop_process, hin, cb_count, List.countP_cons]
        have := ih st h
        simpa [cb_count] using this
      · simpa [loop_run, loop_process, hin] using ih st h

/-- An unregistered pid receives exactly one creation callback when some
fork event creates it, and none otherwise. -/
theorem cb_count_fresh (pid : Int) :
    ∀ (ns : List loop_notice) (st : List Int), pid ∉ st →
      cb_count pid (loop_run st ns) =
        (if ns.any (is_fork_of pid) then 1 else 0) := by
  intro ns
  induction ns with
  | nil =>
    intro st h
    simp [loop_run, cb_count]
  | cons n ns ih =>
    intro st h
    cases n with
    | fork_event p nb =>
      by_cases hpid : nb = pid
      · subst hpid
        have hf : is_fork_of nb (loop_notice.fork_event p nb) = true := by
          simp [is_fork_of]
        have h0 := cb_count_registered nb ns (nb :: st) (List.mem_cons_self _ _)
        simp only [loop_run, loop_process, List.any_cons, hf, Bool.true_or,
          if_pos rfl]
        rw [if_neg h]
        simp only [cb_count, List.countP_append, List.countP_cons,
          List.countP_nil]
        simp only [cb_count] at h0
        simp [h0]
      · have hf : is_fork_of pid (loop_notice.fork_event p nb) = false := by
          simp [is_fork_of, hpid]
        by_cases hin : nb ∈ st
        · simp only [loop_run, loop_process, List.any_cons, hf, Bool.false_or]
          rw [if_pos hin]
          simpa using ih st h
        · have hnotin : pid ∉ nb :: st := by
            intro hmem
            rcases List.mem_cons.mp hmem with heq | hmem2
            · exact hpid heq.symm
            · exact h hmem2
          have hnb : ¬(nb == pid) = true := by simp [hpid]
          simp only [loop_run, loop_process, List.any_cons, hf, Bool.false_or]
          rw [if_neg hin]
          have := ih (nb :: st) hnotin
          simp only [cb_count, List.countP_append, List.countP_cons,
            List.countP_nil] at this ⊢
          simp [hnb, this]
    | stop p =>
      have hf : is_fork_of pid (loop_notice.stop p) = false := rfl
      by_cases hin : p ∈ st
      · simp only [loop_run, loop_process, List.any_cons, hf, Bool.false_or]
        rw [if_pos hin]
        have := ih st h
        simp only [cb_count, List.countP_append, List.countP_cons,
          List.countP_nil] at this ⊢
        simp [this]
      · simp only [loop_run, loop_process, List.any_cons, hf, Bool.false_or]
        rw [if_neg hin]
        simpa using ih st h

/-- Claim C7: for every newly created child discovered by the event loop
(kernel fork/clone trace events or SafeFork), the child-creation callback is
invoked exactly once, after the child is registered and strictly before the
first user-visible event for that child is delivered. -/
theorem child_creation_callback_first :
    ∀ (ns : List loop_notice) (pid : Int),
      ordering_ok pid false false (loop_run [] ns) = true ∧
      (ns.any (is_fork_of pid) = true → cb_count pid (loop_run [] ns) = 1) := by
  intro ns pid
  constructor
  · exact ordering_ok_loop_run pid ns [] false false (by simp) (by simp)
  · intro ha
    have := cb_count_fresh pid ns [] (by simp)
    simpa [ha] using this

/-- Witness for Claim C7 on a concrete notification list: one fork event
for pid 2 followed by a stop yields an ordering-respecting trace with exactly
one creation callback. -/
theorem child_creation_callback_first_witness :
    ordering_ok 2 false false
        (loop_run [] [loop_notice.fork_event 1 2, loop_notice.stop 2]) = true ∧
    cb_count 2 (loop_run [] [loop_notice.fork_event 1 2, loop_notice.stop 2]) = 1 :=
  ⟨(child_creation_callback_first [loop_notice.fork_event 1 2, loop_notice.stop 2] 2).1,
   (child_creation_callback_first [loop_notice.fork_event 1 2, loop_notice.stop 2] 2).2
     (by decide)⟩
